import Mathlib

/-!
# Coverage grid of the HRATC 2015 minefield viewer

A shallow embedding of `src/minefieldViewer/minefieldviewer.cpp`: the constructor that
builds the occupancy grid, `getCoilTransform`, `fillGrid` and the body of the `run` loop.

Conventions of the embedding.
* `float`/`double` values (resolution, coil positions, the published rate) are exact
  rationals; `round` is C's round-half-away-from-zero and the `double`-to-`int`
  conversion truncates toward zero.
* `grid.info.width` and `grid.info.height` are `uint32`: they are naturals below `2^32`
  and their product, as the source computes it, is taken modulo `2^32`.
* `grid.data` is a list of cell values (`int8`): `50` is an unscanned cell, `0` a covered one.
* `int` loop variables and the `coverage` counter are unbounded integers.
-/

namespace Hratc

/-- Modelled from the spec: class `Config` (config.h) is not among the sources; the
fields the constructor reads are a real resolution, two integer cell counts and a real
detection distance. -/
structure Config where
  resolution : ℚ
  numCellsInX : Int
  numCellsInY : Int
  detectionMinDist : ℚ
  deriving DecidableEq

/-- Origin of a `tf::StampedTransform`, the only part of the transform the viewer reads. -/
structure Transform where
  x : ℚ
  y : ℚ
  z : ℚ
  deriving DecidableEq

/-- Modelled from the spec: the class declaration (minefieldviewer.h) is not among the
sources, so the types of `cellRadius` and `coverage` are the integers of the spec (an
integer cell radius, an integer count). The fields are the members the grid logic reads
or writes: `grid.info.resolution`, `grid.info.width`, `grid.info.height`, `grid.data`,
the shared `transform`, `cellRadius` and `coverage`. -/
@[ext]
structure minefieldViewer where
  resolution : ℚ
  width : Nat
  height : Nat
  data : List Int
  transform : Transform
  cellRadius : Int
  coverage : Int
  deriving DecidableEq

/-- Cell value written by the constructor (`resize(..., 50)`): not yet scanned. -/
def UNSCANNED : Int := 50

/-- Cell value written by `fillGrid`: covered. -/
def COVERED : Int := 0

/-- Conversion of an integer to `uint32`. -/
def toUInt32 (n : Int) : Nat := (n % 4294967296).toNat

/-- C `round`: nearest integer, halves away from zero. -/
def cround (q : ℚ) : Int :=
  if 0 ≤ q then ⌊q + 1 / 2⌋ else -⌊-q + 1 / 2⌋

/-- Conversion of a real to `int`: truncation toward zero. -/
def ctrunc (q : ℚ) : Int :=
  if 0 ≤ q then ⌊q⌋ else -⌊-q⌋

/-- The comparison `sqrt(n) <= r` of `fillGrid`, for an integer `n` and the integer
radius `r`, decided without computing the root: the root of a non-negative `n` is at
most `r` exactly when `r` is non-negative and `n ≤ r * r` (see `sqrtLe_iff_real`). -/
def sqrtLe (n r : Int) : Bool := decide (0 ≤ r ∧ n ≤ r * r)

/-- Values taken by `for (int v = lo; v < hi; ++v)`, in order. -/
def forRange (lo hi : Int) : List Int :=
  (List.range (hi - lo).toNat).map (fun (k : Nat) => lo + (k : Int))

/-- Modelled from the spec: the class declaration (minefieldviewer.h) is not among the
sources and the constructor body never assigns `coverage`, so the value the counter has
when the constructor returns is fixed by that declaration; the spec has the grid start
with "coveredCount = 0". -/
def coverageDeclared : Int := 0

/-- The constructor `minefieldViewer::minefieldViewer`, from the point where the
configuration has been loaded (lines 48-58): fills `grid.info`, allocates
`width*height` cells of value 50 with the product computed in `uint32`, and derives the
detection radius in cells. The value `transform()` of the initialiser list leaves in the
member is decided by the tf library, which is not among the sources: it is the
parameter `transform`. -/
def construct (config : Config) (transform : Transform) : minefieldViewer :=
  let resolution := config.resolution
  let width := toUInt32 config.numCellsInX
  let height := toUInt32 config.numCellsInY
  { resolution := resolution
    width := width
    height := height
    data := List.replicate ((width * height) % 4294967296) 50
    transform := transform
    cellRadius := ctrunc (config.detectionMinDist / resolution)
    coverage := coverageDeclared }

/-- Failure kind the spec names for invalid grid parameters. -/
inductive ConfigError where
  | invalidGrid
  deriving DecidableEq

/-- Grid construction as a fallible operation: the constructor contains no check of
the configuration and no `throw`, so its outcome is always the constructed object. -/
def gridInit (config : Config) (transform : Transform) : Except ConfigError minefieldViewer :=
  Except.ok (construct config transform)

/-- The index expression `(h+y)*grid.info.width + w+x` of lines 152 and 155. -/
def cellIndex (w h : Int) (s : minefieldViewer) (x y : Int) : Int :=
  (h + y) * (s.width : Int) + w + x

/-- Body of the two nested loops of `fillGrid` (lines 142-157) for the grid centre
`(w, h)` and the offset `(x, y)`. A read outside the vector yields `0` and a write
outside it is dropped; neither occurs when the vector has `width*height` cells, since
the guards keep the index inside `[0, width*height)`. -/
def fillCell (w h : Int) (s : minefieldViewer) (x y : Int) : minefieldViewer :=
  if 0 ≤ w + x ∧ w + x < (s.width : Int) ∧ 0 ≤ h + y ∧ h + y < (s.height : Int) then
    if sqrtLe (x * x + y * y) s.cellRadius then
      { s with
        coverage :=
          if s.data.getD (cellIndex w h s x y).toNat 0 ≠ 0 then s.coverage + 1 else s.coverage
        data := s.data.set (cellIndex w h s x y).toNat 0 }
    else s
  else s

/-- The nested loops of `fillGrid` (lines 138-159) around the grid centre `(w, h)`. -/
def fillGridAt (s : minefieldViewer) (w h : Int) : minefieldViewer :=
  (forRange (-s.cellRadius) s.cellRadius).foldl
    (fun s x =>
      (forRange (-s.cellRadius) s.cellRadius).foldl (fun s y => fillCell w h s x y) s) s

/-- Grid column of the stored transform: `round(x / resolution + width / 2.0)`. -/
def centreX (s : minefieldViewer) : Int :=
  cround (s.transform.x / s.resolution + (s.width : ℚ) / 2)

/-- Grid row of the stored transform: `round(y / resolution + height / 2.0)`. -/
def centreY (s : minefieldViewer) : Int :=
  cround (s.transform.y / s.resolution + (s.height : ℚ) / 2)

/-- The method `minefieldViewer::fillGrid`. With a zero resolution the quotients of
lines 135-136 are infinite or NaN, every bounds test of lines 143-144 then fails and no
cell is touched. -/
def fillGrid (s : minefieldViewer) : minefieldViewer :=
  if s.resolution = 0 then s else fillGridAt s (centreX s) (centreY s)

/-- Indices of `grid.data` that the loop body reads and writes for one offset: the index
expression when both guards pass, nothing otherwise. -/
def fillCellAccess (w h : Int) (s : minefieldViewer) (x y : Int) : List Int :=
  if 0 ≤ w + x ∧ w + x < (s.width : Int) ∧ 0 ≤ h + y ∧ h + y < (s.height : Int) then
    if sqrtLe (x * x + y * y) s.cellRadius then [cellIndex w h s x y] else []
  else []

/-- Indices of `grid.data` accessed by one call of `fillGrid`, in loop order (the loop
bounds and guards read only `width`, `height` and `cellRadius`, which the body leaves
alone). -/
def fillGridAccess (s : minefieldViewer) : List Int :=
  if s.resolution = 0 then []
  else
    (forRange (-s.cellRadius) s.cellRadius).flatMap (fun x =>
      (forRange (-s.cellRadius) s.cellRadius).flatMap (fun y =>
        fillCellAccess (centreX s) (centreY s) s x y))

/-- The spec's `markCovered`: `fillGrid` run with the given coil position in `transform`
and the given radius in `cellRadius`. -/
def markCovered (s : minefieldViewer) (pose : Transform) (cellRadius : Int) : minefieldViewer :=
  fillGrid { s with transform := pose, cellRadius := cellRadius }

/-- A finite sequence of `markCovered` calls. -/
def markAll (s : minefieldViewer) (stamps : List (Transform × Int)) : minefieldViewer :=
  stamps.foldl (fun s p => markCovered s p.1 p.2) s

/-- The method `minefieldViewer::getCoilTransform`. The argument `lookup i` is the outcome
of `listeners[i]->lookupTransform`: the transform it stores, or `none` when it throws
`tf::TransformException`. The `catch` block declares a second local `no_error`; the one
that is returned is never assigned after its initialisation. -/
def getCoilTransform (s : minefieldViewer) (i : Nat) (lookup : Nat → Option Transform) :
    Bool × minefieldViewer :=
  let no_error := true
  match lookup i with
  | some t => (no_error, { s with transform := t })
  | none =>
    let _no_error := false
    (no_error, s)

/-- The rate published at lines 103-105: `coverage/float(width*height)`, the product
computed in `uint32`. -/
def coverageRate (s : minefieldViewer) : ℚ :=
  (s.coverage : ℚ) / (((s.width * s.height) % 4294967296 : Nat) : ℚ)

/-- One pass of the `for` loop of `run` (lines 83-91) for coil `i`. -/
def coilStep (lookup : Nat → Option Transform) (s : minefieldViewer) (i : Nat) :
    minefieldViewer :=
  if (getCoilTransform s i lookup).1 then fillGrid (getCoilTransform s i lookup).2
  else (getCoilTransform s i lookup).2

/-- One iteration of the `while` loop of `run`: the three coils in order, then the
published rate. The header stamp and the `z` of the grid origin, which the loop also
sets, play no part in the coverage and are left out. -/
def runCycle (s : minefieldViewer) (lookup : Nat → Option Transform) : minefieldViewer × ℚ :=
  ((List.range 3).foldl (coilStep lookup) s,
    coverageRate ((List.range 3).foldl (coilStep lookup) s))

/-- The two logical cell states of the spec. -/
inductive CellState where
  | UNSCANNED
  | COVERED
  deriving DecidableEq

/-- Logical state of a cell value: `fillGrid` tests `!= 0`, so `0` is COVERED and every
other value counts as not yet covered. -/
def cellState (v : Int) : CellState :=
  if v = 0 then CellState.COVERED else CellState.UNSCANNED

/-- Value of the cell in column `i` and row `j` (row-major storage). -/
def cellAt (s : minefieldViewer) (i j : Nat) : Int :=
  s.data.getD (j * s.width + i) 0

/-- Number of cells whose state is COVERED. -/
def coveredCells (s : minefieldViewer) : Nat :=
  s.data.countP (fun v => decide (cellState v = CellState.COVERED))

/-- The footprint of the spec for the cell in column `i` and row `j`: its offset from the
centre cell lies in the half-open square and within the radius. -/
def inFootprint (s : minefieldViewer) (i j : Nat) : Prop :=
  -s.cellRadius ≤ (i : Int) - centreX s ∧ (i : Int) - centreX s < s.cellRadius ∧
  -s.cellRadius ≤ (j : Int) - centreY s ∧ (j : Int) - centreY s < s.cellRadius ∧
  ((i : Int) - centreX s) * ((i : Int) - centreX s) +
    ((j : Int) - centreY s) * ((j : Int) - centreY s) ≤ s.cellRadius * s.cellRadius

instance inFootprintDecidable (s : minefieldViewer) (i j : Nat) :
    Decidable (inFootprint s i j) := by
  unfold inFootprint
  infer_instance

/-- Marking one cell: count it when it is not yet covered, then set it covered. -/
def mark (s : minefieldViewer) (k : Nat) : minefieldViewer :=
  { s with
    coverage := if s.data.getD k 0 ≠ 0 then s.coverage + 1 else s.coverage
    data := s.data.set k 0 }

/-- Cell values after marking the cells `ks`. -/
def markData (d : List Int) (ks : List Nat) : List Int :=
  ks.foldl (fun d k => d.set k 0) d

/-- Cells marked by `fillGrid` in the state `s`, in loop order. -/
def stampCells (s : minefieldViewer) : List Nat :=
  (fillGridAccess s).map Int.toNat

/-- The grid shape and radius agree in two states. -/
def SameShape (s t : minefieldViewer) : Prop :=
  s.width = t.width ∧ s.height = t.height ∧ s.cellRadius = t.cellRadius

/-- The counter equals the number of COVERED cells. -/
def Counted (s : minefieldViewer) : Prop := s.coverage = (coveredCells s : Int)

/-- Configuration of the spec's geometry example: resolution 1, a grid of 10 by 10 cells
and a detection distance of 2, hence a radius of 2 cells. -/
def exampleConfig : Config := ⟨1, 10, 10, 2⟩

/-- A coil over the world origin. -/
def originPose : Transform := ⟨0, 0, 0⟩

/-- A coil far outside the field of `exampleConfig`. -/
def farPose : Transform := ⟨100, 100, 0⟩

/-- A coil three cells to the right of and above the world origin. -/
def sidePose : Transform := ⟨3, 3, 0⟩

/-- Lookup outcomes of a cycle in which only coil 1 is found, at `sidePose`; the lookups
of coils 0 and 2 throw. -/
def onlyMiddle (i : Nat) : Option Transform :=
  if i = 1 then some sidePose else none

/-- The `for` loop of `run` (lines 83-91) with the coils visited in the given order; the
source visits them in the order 0, 1, 2. -/
def runCoils (s : minefieldViewer) (lookup : Nat → Option Transform) (order : List Nat) :
    minefieldViewer :=
  order.foldl (coilStep lookup) s

/-- A grid of a single cell, with a radius of 2 cells. -/
def unitConfig : Config := ⟨1, 1, 1, 2⟩

/-- The viewer built from `unitConfig`, written out field by field. -/
def unitGrid : minefieldViewer :=
  ⟨1, 1, 1, [50], originPose, 2, 0⟩

/-- The viewer built from `exampleConfig`, written out field by field. -/
def exampleGrid : minefieldViewer :=
  ⟨1, 10, 10, List.replicate 100 50, originPose, 2, 0⟩

/-! ## The comparison under the square root -/

theorem sqrtLe_iff_real (n r : Int) :
    sqrtLe n r = true ↔ Real.sqrt (n : ℝ) ≤ (r : ℝ) := by
  rw [Real.sqrt_le_iff]
  simp only [sqrtLe, decide_eq_true_eq]
  constructor
  · rintro ⟨h1, h2⟩
    refine ⟨by exact_mod_cast h1, ?_⟩
    have : ((n : Int) : ℝ) ≤ ((r * r : Int) : ℝ) := by exact_mod_cast h2
    simpa [pow_two] using this
  · rintro ⟨h1, h2⟩
    refine ⟨by exact_mod_cast h1, ?_⟩
    have : ((n : Int) : ℝ) ≤ ((r * r : Int) : ℝ) := by simpa [pow_two] using h2
    exact_mod_cast this

/-! ## `fillGrid` as a sequence of cell markings -/

theorem mark_width (s : minefieldViewer) (k : Nat) : (mark s k).width = s.width := rfl
theorem mark_height (s : minefieldViewer) (k : Nat) : (mark s k).height = s.height := rfl
theorem mark_cellRadius (s : minefieldViewer) (k : Nat) :
    (mark s k).cellRadius = s.cellRadius := rfl
theorem mark_resolution (s : minefieldViewer) (k : Nat) :
    (mark s k).resolution = s.resolution := rfl
theorem mark_transform (s : minefieldViewer) (k : Nat) :
    (mark s k).transform = s.transform := rfl
theorem mark_data (s : minefieldViewer) (k : Nat) :
    (mark s k).data = s.data.set k 0 := rfl

theorem sameShape_refl (s : minefieldViewer) : SameShape s s := ⟨rfl, rfl, rfl⟩

theorem sameShape_mark {s t : minefieldViewer} (h : SameShape s t) (k : Nat) :
    SameShape (mark s k) t := h

theorem sameShape_foldl_mark {t : minefieldViewer} (ks : List Nat) :
    ∀ s : minefieldViewer, SameShape s t → SameShape (ks.foldl mark s) t := by
  induction ks with
  | nil => intro s h; exact h
  | cons k ks ih => intro s h; exact ih _ (sameShape_mark h k)

theorem fillCellAccess_congr (w h : Int) {s t : minefieldViewer} (hs : SameShape s t)
    (x y : Int) : fillCellAccess w h s x y = fillCellAccess w h t x y := by
  obtain ⟨h1, h2, h3⟩ := hs
  simp [fillCellAccess, cellIndex, h1, h2, h3]

theorem fillCell_eq_mark (w h : Int) (s : minefieldViewer) (x y : Int) :
    fillCell w h s x y = ((fillCellAccess w h s x y).map Int.toNat).foldl mark s := by
  unfold fillCell fillCellAccess
  split
  · split
    · rfl
    · rfl
  · rfl

/-- A loop whose body marks the cells `g a` (as long as the shape is that of `t`) marks
the concatenation of these lists. -/
theorem foldl_eq_foldl_mark {α : Type} (t : minefieldViewer)
    (f : minefieldViewer → α → minefieldViewer) (g : α → List Int)
    (hf : ∀ s a, SameShape s t → f s a = ((g a).map Int.toNat).foldl mark s) :
    ∀ (l : List α) (s : minefieldViewer), SameShape s t →
      l.foldl f s = ((l.flatMap g).map Int.toNat).foldl mark s := by
  intro l
  induction l with
  | nil => intro s _; rfl
  | cons a l ih =>
    intro s hs
    rw [List.foldl_cons, hf s a hs, ih _ (sameShape_foldl_mark _ s hs)]
    simp [List.flatMap_cons, List.foldl_append]

theorem fillGridAt_eq_mark (s : minefieldViewer) (w h : Int) :
    fillGridAt s w h =
      (((forRange (-s.cellRadius) s.cellRadius).flatMap (fun x =>
        (forRange (-s.cellRadius) s.cellRadius).flatMap (fun y =>
          fillCellAccess w h s x y))).map Int.toNat).foldl mark s := by
  unfold fillGridAt
  refine foldl_eq_foldl_mark s _ _ ?_ _ s (sameShape_refl s)
  intro s1 x h1
  rw [h1.2.2]
  refine foldl_eq_foldl_mark s _ _ ?_ _ s1 h1
  intro s2 y h2
  rw [fillCell_eq_mark, fillCellAccess_congr w h h2]

theorem fillGrid_eq_mark (s : minefieldViewer) :
    fillGrid s = (stampCells s).foldl mark s := by
  unfold fillGrid stampCells fillGridAccess
  split
  · rfl
  · exact fillGridAt_eq_mark s _ _

/-! ## Marking cells: values and counter -/

theorem foldl_mark_data (ks : List Nat) :
    ∀ s : minefieldViewer, (ks.foldl mark s).data = markData s.data ks := by
  induction ks with
  | nil => intro s; rfl
  | cons k ks ih => intro s; simp [List.foldl_cons, ih, markData, mark_data]

theorem foldl_mark_fields (ks : List Nat) :
    ∀ s : minefieldViewer,
      (ks.foldl mark s).resolution = s.resolution ∧ (ks.foldl mark s).width = s.width ∧
      (ks.foldl mark s).height = s.height ∧ (ks.foldl mark s).transform = s.transform ∧
      (ks.foldl mark s).cellRadius = s.cellRadius := by
  induction ks with
  | nil => intro s; exact ⟨rfl, rfl, rfl, rfl, rfl⟩
  | cons k ks ih => intro s; exact ih (mark s k)

theorem markData_length (ks : List Nat) :
    ∀ d : List Int, (markData d ks).length = d.length := by
  induction ks with
  | nil => intro d; rfl
  | cons k ks ih => intro d; simp [markData] at ih ⊢; rw [ih]; simp

theorem markData_getElem_opt (ks : List Nat) :
    ∀ (d : List Int) (j : Nat),
      (markData d ks)[j]? = if j ∈ ks then (d[j]?).map (fun _ => 0) else d[j]? := by
  induction ks with
  | nil => intro d j; simp [markData]
  | cons k ks ih =>
    intro d j
    have h := ih (d.set k 0) j
    simp only [markData, List.foldl_cons] at h ⊢
    rw [h]
    by_cases hjk : j = k
    · subst hjk
      by_cases hj : j < d.length
      · by_cases hm : j ∈ ks <;> simp [hm, hj]
      · have hj2 : d.length ≤ j := Nat.le_of_not_lt hj
        have h1 : d[j]? = none := List.getElem?_eq_none hj2
        have h2 : (d.set j 0)[j]? = none := List.getElem?_eq_none (by simpa using hj2)
        by_cases hm : j ∈ ks <;> simp [hm, h1, h2]
    · have hkj : ¬ k = j := fun h => hjk h.symm
      by_cases hm : j ∈ ks <;> simp [hm, hjk, hkj, List.getElem?_set]

theorem countP_covered_set (d : List Int) :
    ∀ k : Nat,
      (d.set k 0).countP (fun v => decide (cellState v = CellState.COVERED)) =
        d.countP (fun v => decide (cellState v = CellState.COVERED)) +
          (if d.getD k 0 ≠ 0 then 1 else 0) := by
  induction d with
  | nil => intro k; simp
  | cons a d ih =>
    intro k
    cases k with
    | zero =>
      by_cases ha : a = 0
      · simp [ha, cellState]
      · simp [ha, cellState, List.countP_cons]
    | succ k =>
      simp only [List.set_cons_succ, List.countP_cons, List.getD_cons_succ, ih k]
      omega

theorem foldl_mark_coverage (ks : List Nat) :
    ∀ s : minefieldViewer,
      (ks.foldl mark s).coverage + (coveredCells s : Int) =
        s.coverage + (coveredCells (ks.foldl mark s) : Int) := by
  induction ks with
  | nil => intro s; rfl
  | cons k ks ih =>
    intro s
    have h := ih (mark s k)
    have hc : (coveredCells (mark s k) : Int) =
        (coveredCells s : Int) + (if s.data.getD k 0 ≠ 0 then 1 else 0) := by
      simp only [coveredCells, mark_data, countP_covered_set]
      split <;> simp
    have hm : (mark s k).coverage = s.coverage + (if s.data.getD k 0 ≠ 0 then 1 else 0) := by
      simp only [mark]
      split <;> simp
    rw [List.foldl_cons]
    rw [hc, hm] at h
    linarith

/-! ## Effect of one `fillGrid` call -/

theorem stampCells_congr {s t : minefieldViewer} (h1 : s.resolution = t.resolution)
    (h2 : s.width = t.width) (h3 : s.height = t.height) (h4 : s.transform = t.transform)
    (h5 : s.cellRadius = t.cellRadius) : stampCells s = stampCells t := by
  have hx : centreX s = centreX t := by simp [centreX, h1, h2, h4]
  have hy : centreY s = centreY t := by simp [centreY, h1, h3, h4]
  have hc : ∀ x y, fillCellAccess (centreX s) (centreY s) s x y =
      fillCellAccess (centreX t) (centreY t) t x y := by
    intro x y
    rw [hx, hy]
    exact fillCellAccess_congr _ _ ⟨h2, h3, h5⟩ x y
  simp only [stampCells, fillGridAccess, h1, h5, hc]

theorem fillGrid_fields (s : minefieldViewer) :
    (fillGrid s).resolution = s.resolution ∧ (fillGrid s).width = s.width ∧
    (fillGrid s).height = s.height ∧ (fillGrid s).transform = s.transform ∧
    (fillGrid s).cellRadius = s.cellRadius := by
  rw [fillGrid_eq_mark]
  exact foldl_mark_fields _ s

theorem fillGrid_data (s : minefieldViewer) :
    (fillGrid s).data = markData s.data (stampCells s) := by
  rw [fillGrid_eq_mark]
  exact foldl_mark_data _ s

theorem fillGrid_coverage (s : minefieldViewer) :
    (fillGrid s).coverage + (coveredCells s : Int) =
      s.coverage + (coveredCells (fillGrid s) : Int) := by
  rw [fillGrid_eq_mark]
  exact foldl_mark_coverage _ s

theorem coveredCells_congr {s t : minefieldViewer} (h : s.data = t.data) :
    coveredCells s = coveredCells t := by
  simp [coveredCells, h]

theorem markData_idem (d : List Int) (ks : List Nat) :
    markData (markData d ks) ks = markData d ks := by
  apply List.ext_getElem?
  intro j
  rw [markData_getElem_opt, markData_getElem_opt]
  by_cases hm : j ∈ ks
  · simp only [hm, if_true]
    cases d[j]? <;> rfl
  · simp [hm]

theorem markData_comm (d : List Int) (ks ls : List Nat) :
    markData (markData d ks) ls = markData (markData d ls) ks := by
  apply List.ext_getElem?
  intro j
  simp only [markData_getElem_opt]
  by_cases hk : j ∈ ks <;> by_cases hl : j ∈ ls <;> simp [hk, hl]

theorem fillGrid_idem (s : minefieldViewer) : fillGrid (fillGrid s) = fillGrid s := by
  obtain ⟨h1, h2, h3, h4, h5⟩ := fillGrid_fields s
  obtain ⟨g1, g2, g3, g4, g5⟩ := fillGrid_fields (fillGrid s)
  have hd : (fillGrid (fillGrid s)).data = (fillGrid s).data := by
    rw [fillGrid_data (fillGrid s), stampCells_congr h1 h2 h3 h4 h5, fillGrid_data s,
      markData_idem]
  have hc := fillGrid_coverage (fillGrid s)
  rw [coveredCells_congr hd] at hc
  exact minefieldViewer.ext g1 g2 g3 hd g4 g5 (by linarith)

theorem counted_markCovered {s : minefieldViewer} (h : Counted s) (pose : Transform) (r : Int) :
    Counted (markCovered s pose r) := by
  have hc := fillGrid_coverage { s with transform := pose, cellRadius := r }
  have h0 : coveredCells { s with transform := pose, cellRadius := r } = coveredCells s := rfl
  unfold Counted at h ⊢
  unfold markCovered
  rw [h0] at hc
  simp only at hc
  linarith

theorem counted_markAll (stamps : List (Transform × Int)) :
    ∀ s : minefieldViewer, Counted s → Counted (markAll s stamps) := by
  induction stamps with
  | nil => intro s h; exact h
  | cons p ps ih => intro s h; exact ih _ (counted_markCovered h p.1 p.2)

theorem toUInt32_of_fit {a b : Int} (ha : 0 < a) (hb : 0 < b) (hfit : a * b < 4294967296) :
    (toUInt32 a * toUInt32 b) % 4294967296 = (a * b).toNat ∧ 0 < (a * b).toNat := by
  obtain ⟨m, rfl⟩ := Int.eq_ofNat_of_zero_le ha.le
  obtain ⟨n, rfl⟩ := Int.eq_ofNat_of_zero_le hb.le
  have hm : 0 < m := by exact_mod_cast ha
  have hn : 0 < n := by exact_mod_cast hb
  have hmn : m * n < 4294967296 := by exact_mod_cast hfit
  have hm2 : m < 4294967296 := lt_of_le_of_lt (Nat.le_mul_of_pos_right m hn) hmn
  have hn2 : n < 4294967296 := lt_of_le_of_lt (Nat.le_mul_of_pos_left n hm) hmn
  have e1 : toUInt32 (m : Int) = m := by
    unfold toUInt32; omega
  have e2 : toUInt32 (n : Int) = n := by
    unfold toUInt32; omega
  have e3 : ((m : Int) * (n : Int)).toNat = m * n := by
    rw [← Nat.cast_mul]; exact Int.toNat_natCast _
  rw [e1, e2, e3, Nat.mod_eq_of_lt hmn]
  exact ⟨rfl, Nat.mul_pos hm hn⟩

theorem counted_construct (config : Config) (transform : Transform) :
    Counted (construct config transform) := by
  simp [Counted, construct, coveredCells, coverageDeclared, cellState, List.countP_replicate]

/-! ## `markCovered` and sequences of calls -/

theorem markCovered_shape (s : minefieldViewer) (pose : Transform) (r : Int) :
    (markCovered s pose r).resolution = s.resolution ∧ (markCovered s pose r).width = s.width ∧
    (markCovered s pose r).height = s.height ∧
    (markCovered s pose r).data.length = s.data.length := by
  obtain ⟨h1, h2, h3, _, _⟩ := fillGrid_fields { s with transform := pose, cellRadius := r }
  refine ⟨h1, h2, h3, ?_⟩
  unfold markCovered
  rw [fillGrid_data, markData_length]

theorem markCovered_data (s : minefieldViewer) (pose : Transform) (r : Int) :
    (markCovered s pose r).data =
      markData s.data (stampCells { s with transform := pose, cellRadius := r }) := by
  unfold markCovered
  rw [fillGrid_data]

theorem markCovered_coverage (s : minefieldViewer) (pose : Transform) (r : Int) :
    (markCovered s pose r).coverage + (coveredCells s : Int) =
      s.coverage + (coveredCells (markCovered s pose r) : Int) :=
  fillGrid_coverage { s with transform := pose, cellRadius := r }

theorem markAll_shape (stamps : List (Transform × Int)) :
    ∀ s : minefieldViewer,
      (markAll s stamps).width = s.width ∧ (markAll s stamps).height = s.height ∧
      (markAll s stamps).data.length = s.data.length := by
  induction stamps with
  | nil => intro s; exact ⟨rfl, rfl, rfl⟩
  | cons p ps ih =>
    intro s
    obtain ⟨_, h2, h3, h4⟩ := markCovered_shape s p.1 p.2
    obtain ⟨g2, g3, g4⟩ := ih (markCovered s p.1 p.2)
    exact ⟨g2.trans h2, g3.trans h3, g4.trans h4⟩

theorem construct_data_of_fit (config : Config) (transform : Transform)
    (hw : 0 < config.numCellsInX) (hh : 0 < config.numCellsInY)
    (hfit : config.numCellsInX * config.numCellsInY < 4294967296) :
    (construct config transform).data =
      List.replicate (config.numCellsInX * config.numCellsInY).toNat UNSCANNED := by
  simp only [construct, (toUInt32_of_fit hw hh hfit).1, UNSCANNED]

/-! ## Which cells a call marks -/

theorem mem_forRange (lo hi v : Int) : v ∈ forRange lo hi ↔ lo ≤ v ∧ v < hi := by
  simp only [forRange, List.mem_map, List.mem_range]
  constructor
  · rintro ⟨k, hk, rfl⟩
    omega
  · rintro ⟨h1, h2⟩
    refine ⟨(v - lo).toNat, ?_, ?_⟩
    · omega
    · omega

theorem mem_fillCellAccess (w h : Int) (s : minefieldViewer) (x y idx : Int) :
    idx ∈ fillCellAccess w h s x y ↔
      (0 ≤ w + x ∧ w + x < (s.width : Int) ∧ 0 ≤ h + y ∧ h + y < (s.height : Int)) ∧
        x * x + y * y ≤ s.cellRadius * s.cellRadius ∧ 0 ≤ s.cellRadius ∧
        idx = cellIndex w h s x y := by
  unfold fillCellAccess
  by_cases hb : 0 ≤ w + x ∧ w + x < (s.width : Int) ∧ 0 ≤ h + y ∧ h + y < (s.height : Int)
  · by_cases hr : sqrtLe (x * x + y * y) s.cellRadius = true
    · have hr2 := hr
      simp only [sqrtLe, decide_eq_true_eq] at hr2
      simp [hb, hr, hr2.1, hr2.2]
    · have hr2 := hr
      simp only [sqrtLe, decide_eq_true_eq] at hr2
      simp only [hb, hr, Bool.false_eq_true, if_true, if_false, List.not_mem_nil, true_and,
        false_iff, and_self]
      rintro ⟨h1, h2, _⟩
      exact hr2 ⟨h2, h1⟩
  · simp [hb]

theorem mem_fillGridAccess (s : minefieldViewer) (idx : Int) :
    idx ∈ fillGridAccess s ↔
      s.resolution ≠ 0 ∧ ∃ x y : Int,
        (-s.cellRadius ≤ x ∧ x < s.cellRadius) ∧ (-s.cellRadius ≤ y ∧ y < s.cellRadius) ∧
        (0 ≤ centreX s + x ∧ centreX s + x < (s.width : Int) ∧
          0 ≤ centreY s + y ∧ centreY s + y < (s.height : Int)) ∧
        x * x + y * y ≤ s.cellRadius * s.cellRadius ∧
        idx = cellIndex (centreX s) (centreY s) s x y := by
  unfold fillGridAccess
  by_cases h0 : s.resolution = 0
  · simp [h0]
  · simp only [h0, if_false, List.mem_flatMap, mem_forRange, mem_fillCellAccess, ne_eq,
      not_false_eq_true, true_and]
    constructor
    · rintro ⟨x, hx, y, hy, hb, hc, _, hi⟩
      exact ⟨x, y, hx, hy, hb, hc, hi⟩
    · rintro ⟨x, y, hx, hy, hb, hc, hi⟩
      exact ⟨x, hx, y, hy, hb, hc, by omega, hi⟩

theorem cellIndex_bounds (w h : Int) (s : minefieldViewer) (x y : Int)
    (hb : 0 ≤ w + x ∧ w + x < (s.width : Int) ∧ 0 ≤ h + y ∧ h + y < (s.height : Int)) :
    0 ≤ cellIndex w h s x y ∧ cellIndex w h s x y < (s.width : Int) * (s.height : Int) := by
  obtain ⟨h1, h2, h3, h4⟩ := hb
  unfold cellIndex
  have hW : (0 : Int) ≤ (s.width : Int) := Int.ofNat_nonneg _
  constructor
  · nlinarith [mul_nonneg h3 hW]
  · nlinarith [mul_nonneg (by linarith : (0 : Int) ≤ (s.height : Int) - 1 - (h + y)) hW]

theorem construct_exampleConfig : construct exampleConfig originPose = exampleGrid := by
  simp [construct, exampleConfig, exampleGrid, toUInt32, ctrunc, coverageDeclared]

theorem centre_exampleGrid : centreX exampleGrid = 5 ∧ centreY exampleGrid = 5 := by
  constructor
  · simp [centreX, exampleGrid, originPose, cround, Int.floor_eq_iff]; norm_num
  · simp [centreY, exampleGrid, originPose, cround, Int.floor_eq_iff]; norm_num

theorem fillGrid_exampleGrid : fillGrid exampleGrid = fillGridAt exampleGrid 5 5 := by
  have h0 : exampleGrid.resolution ≠ 0 := by simp [exampleGrid]
  unfold fillGrid
  rw [if_neg h0, centre_exampleGrid.1, centre_exampleGrid.2]

theorem markAll_unitConfig :
    markAll (construct unitConfig originPose) [(originPose, 2)] = fillGridAt unitGrid 1 1 := by
  have hs : ({ construct unitConfig originPose with
      transform := originPose, cellRadius := 2 } : minefieldViewer) = unitGrid := by
    simp [construct, unitConfig, unitGrid, toUInt32, coverageDeclared]
  have hx : centreX unitGrid = 1 := by
    simp [centreX, unitGrid, originPose, cround, Int.floor_eq_iff]; norm_num
  have hy : centreY unitGrid = 1 := by
    simp [centreY, unitGrid, originPose, cround, Int.floor_eq_iff]; norm_num
  have h0 : unitGrid.resolution ≠ 0 := by simp [unitGrid]
  have hm : markAll (construct unitConfig originPose) [(originPose, 2)] =
      fillGrid { construct unitConfig originPose with
        transform := originPose, cellRadius := 2 } := rfl
  rw [hm, hs]
  unfold fillGrid
  rw [if_neg h0, hx, hy]

theorem fillGrid_sidePose_fresh :
    fillGrid { exampleGrid with transform := sidePose } =
      fillGridAt { exampleGrid with transform := sidePose } 8 8 := by
  have h0 : ({ exampleGrid with transform := sidePose } : minefieldViewer).resolution ≠ 0 := by
    simp [exampleGrid]
  have hx : centreX { exampleGrid with transform := sidePose } = 8 := by
    simp [centreX, exampleGrid, sidePose, cround, Int.floor_eq_iff]; norm_num
  have hy : centreY { exampleGrid with transform := sidePose } = 8 := by
    simp [centreY, exampleGrid, sidePose, cround, Int.floor_eq_iff]; norm_num
  unfold fillGrid
  rw [if_neg h0, hx, hy]

theorem fillGrid_sidePose_stamped :
    fillGrid { fillGrid exampleGrid with transform := sidePose } =
      fillGridAt { fillGridAt exampleGrid 5 5 with transform := sidePose } 8 8 := by
  obtain ⟨h1, h2, h3, _, _⟩ := fillGrid_fields exampleGrid
  have hr : (fillGrid exampleGrid).resolution = 1 := by rw [h1]; rfl
  have hw : (fillGrid exampleGrid).width = 10 := by rw [h2]; rfl
  have hh : (fillGrid exampleGrid).height = 10 := by rw [h3]; rfl
  have h0 : ({ fillGrid exampleGrid with transform := sidePose } :
      minefieldViewer).resolution ≠ 0 := by
    show (fillGrid exampleGrid).resolution ≠ 0
    rw [hr]; norm_num
  have hx : centreX { fillGrid exampleGrid with transform := sidePose } = 8 := by
    simp [centreX, hr, hw, sidePose, cround, Int.floor_eq_iff]; norm_num
  have hy : centreY { fillGrid exampleGrid with transform := sidePose } = 8 := by
    simp [centreY, hr, hh, sidePose, cround, Int.floor_eq_iff]; norm_num
  unfold fillGrid at hx hy h0 ⊢
  rw [if_neg h0, hx, hy]
  have he : (if exampleGrid.resolution = 0 then exampleGrid
      else fillGridAt exampleGrid (centreX exampleGrid) (centreY exampleGrid)) =
      fillGridAt exampleGrid 5 5 := fillGrid_exampleGrid
  rw [he]

/-! ## Claims -/

/-- C1: in every state reached from the constructor (positive width, height and
resolution) by a finite sequence of `markCovered` calls with arbitrary poses and radii,
the counter `coverage` equals the number of COVERED cells; right after construction
every cell is UNSCANNED, there are `width*height` of them (the product fitting `uint32`)
and the counter is 0. -/
theorem coverage_eq_coveredCells (config : Config) (transform : Transform)
    (hw : 0 < config.numCellsInX) (hh : 0 < config.numCellsInY)
    (_hr : 0 < config.resolution) (stamps : List (Transform × Int)) :
    (∀ v ∈ (construct config transform).data, cellState v = CellState.UNSCANNED) ∧
      (config.numCellsInX * config.numCellsInY < 4294967296 →
        (construct config transform).data =
          List.replicate (config.numCellsInX * config.numCellsInY).toNat UNSCANNED) ∧
      (construct config transform).coverage = 0 ∧
      coveredCells (construct config transform) = 0 ∧
      (markAll (construct config transform) stamps).coverage =
        (coveredCells (markAll (construct config transform) stamps) : Int) := by
  refine ⟨?_, construct_data_of_fit config transform hw hh, rfl, ?_,
    counted_markAll stamps _ (counted_construct config transform)⟩
  · intro v hv
    have : v = 50 := by
      simp only [construct] at hv
      exact List.eq_of_mem_replicate hv
    subst this
    decide
  · have h := counted_construct config transform
    unfold Counted at h
    have h0 : (construct config transform).coverage = 0 := rfl
    rw [h0] at h
    exact_mod_cast h.symm

/-- C1 at the example configuration with one stamp over the origin. -/
theorem coverage_eq_coveredCells_witness :
    (construct exampleConfig originPose).data = List.replicate 100 UNSCANNED ∧
      (markAll (construct exampleConfig originPose) [(originPose, 2)]).coverage =
        (coveredCells (markAll (construct exampleConfig originPose) [(originPose, 2)]) : Int) :=
  ⟨(coverage_eq_coveredCells exampleConfig originPose (by decide) (by decide)
      (by norm_num [exampleConfig]) [(originPose, 2)]).2.1 (by decide),
    (coverage_eq_coveredCells exampleConfig originPose (by decide) (by decide)
      (by norm_num [exampleConfig]) [(originPose, 2)]).2.2.2.2⟩

/-- C7: `fillGrid` is idempotent: a second call with the same pose and radius (both are
part of the state and a call leaves them alone) returns the state of the first call,
cells and counter included. -/
theorem fillGrid_idempotent (s : minefieldViewer) (pose : Transform) (r : Int) :
    fillGrid (fillGrid s) = fillGrid s ∧
      (markCovered (markCovered s pose r) pose r).data = (markCovered s pose r).data ∧
      (markCovered (markCovered s pose r) pose r).coverage = (markCovered s pose r).coverage := by
  refine ⟨fillGrid_idem s, ?_⟩
  have h : markCovered (markCovered s pose r) pose r = markCovered s pose r := by
    obtain ⟨_, _, _, h4, h5⟩ := fillGrid_fields { s with transform := pose, cellRadius := r }
    have e : ({ (markCovered s pose r) with transform := pose, cellRadius := r } :
        minefieldViewer) = markCovered s pose r := by
      unfold markCovered
      exact minefieldViewer.ext rfl rfl rfl rfl h4.symm h5.symm rfl
    show fillGrid _ = _
    rw [e]
    exact fillGrid_idem _
  rw [h]
  exact ⟨rfl, rfl⟩

/-- Two `markCovered` calls commute: whatever the state and the two stamps, both orders
give the same cells and the same `coverage`. -/
theorem markCovered_comm (s : minefieldViewer) (p1 p2 : Transform) (r1 r2 : Int) :
    (markCovered (markCovered s p1 r1) p2 r2).data =
        (markCovered (markCovered s p2 r2) p1 r1).data ∧
      (markCovered (markCovered s p1 r1) p2 r2).coverage =
        (markCovered (markCovered s p2 r2) p1 r1).coverage := by
  obtain ⟨a1, a2, a3, _⟩ := markCovered_shape s p1 r1
  obtain ⟨b1, b2, b3, _⟩ := markCovered_shape s p2 r2
  have hd : (markCovered (markCovered s p1 r1) p2 r2).data =
      (markCovered (markCovered s p2 r2) p1 r1).data := by
    have e1 : stampCells { (markCovered s p1 r1) with transform := p2, cellRadius := r2 } =
        stampCells { s with transform := p2, cellRadius := r2 } :=
      stampCells_congr a1 a2 a3 rfl rfl
    have e2 : stampCells { (markCovered s p2 r2) with transform := p1, cellRadius := r1 } =
        stampCells { s with transform := p1, cellRadius := r1 } :=
      stampCells_congr b1 b2 b3 rfl rfl
    rw [markCovered_data (markCovered s p1 r1) p2 r2, e1,
      markCovered_data (markCovered s p2 r2) p1 r1, e2,
      markCovered_data s p1 r1, markCovered_data s p2 r2]
    exact markData_comm _ _ _
  refine ⟨hd, ?_⟩
  have c1 := markCovered_coverage s p1 r1
  have c2 := markCovered_coverage s p2 r2
  have c12 := markCovered_coverage (markCovered s p1 r1) p2 r2
  have c21 := markCovered_coverage (markCovered s p2 r2) p1 r1
  rw [coveredCells_congr hd] at c12
  linarith

/-- C8: the published rate `coverage / (width*height)` is 0 right after construction, lies
between 0 and 1 in every state reached from there by `markCovered` calls, and is 1 in such
a state when every cell is COVERED (positive width and height, the cell count fitting the
`uint32` product). -/
theorem coverageRate_unit_interval (config : Config) (transform : Transform)
    (hw : 0 < config.numCellsInX) (hh : 0 < config.numCellsInY)
    (hfit : config.numCellsInX * config.numCellsInY < 4294967296)
    (stamps : List (Transform × Int)) :
    coverageRate (construct config transform) = 0 ∧
      (0 ≤ coverageRate (markAll (construct config transform) stamps) ∧
        coverageRate (markAll (construct config transform) stamps) ≤ 1) ∧
      ((∀ v ∈ (markAll (construct config transform) stamps).data,
          cellState v = CellState.COVERED) →
        coverageRate (markAll (construct config transform) stamps) = 1) := by
  obtain ⟨hN, hpos⟩ := toUInt32_of_fit hw hh hfit
  obtain ⟨e1, e2, e3⟩ := markAll_shape stamps (construct config transform)
  have hcnt := counted_markAll stamps _ (counted_construct config transform)
  unfold Counted at hcnt
  have hlen : (markAll (construct config transform) stamps).data.length =
      (config.numCellsInX * config.numCellsInY).toNat := by
    rw [e3]
    simp only [construct, List.length_replicate, hN]
  have hden : ((markAll (construct config transform) stamps).width *
      (markAll (construct config transform) stamps).height) % 4294967296 =
      (config.numCellsInX * config.numCellsInY).toNat := by
    rw [e1, e2]
    exact hN
  have hle : coveredCells (markAll (construct config transform) stamps) ≤
      (config.numCellsInX * config.numCellsInY).toNat := by
    rw [← hlen]
    exact List.countP_le_length _
  have hposq : (0 : ℚ) < (((config.numCellsInX * config.numCellsInY).toNat : Nat) : ℚ) := by
    exact_mod_cast hpos
  refine ⟨?_, ⟨?_, ?_⟩, ?_⟩
  · simp [coverageRate, construct, coverageDeclared]
  · unfold coverageRate
    rw [hden, hcnt]
    exact div_nonneg (by exact_mod_cast Nat.zero_le _) hposq.le
  · unfold coverageRate
    rw [hden, hcnt, div_le_one hposq]
    exact_mod_cast hle
  · intro hall
    have hc : coveredCells (markAll (construct config transform) stamps) =
        (config.numCellsInX * config.numCellsInY).toNat := by
      rw [← hlen]
      unfold coveredCells
      rw [List.countP_eq_length]
      intro v hv
      simpa using hall v hv
    unfold coverageRate
    rw [hden, hcnt, hc]
    exact div_self (ne_of_gt hposq)

/-- C8 on the grid of one cell: after one stamp over the origin the cell is covered and
the rate is 1. -/
theorem coverageRate_unit_interval_witness :
    coverageRate (markAll (construct unitConfig originPose) [(originPose, 2)]) = 1 :=
  (coverageRate_unit_interval unitConfig originPose (by decide) (by decide) (by decide)
    [(originPose, 2)]).2.2 (by
      rw [markAll_unitConfig]
      decide)

/-- C9: every index of `grid.data` that `fillGrid` reads or writes lies in
`[0, width*height)`, hence inside the vector when it has `width*height` cells; and when
every offset of the footprint falls outside the grid, no cell is accessed and the state,
cells and counter included, is returned as it was. -/
theorem fillGrid_access_in_bounds (s : minefieldViewer) :
    (∀ idx ∈ fillGridAccess s, 0 ≤ idx ∧ idx < (s.width : Int) * (s.height : Int)) ∧
      (s.data.length = s.width * s.height →
        ∀ idx ∈ fillGridAccess s, idx.toNat < s.data.length) ∧
      ((∀ x y : Int, -s.cellRadius ≤ x → x < s.cellRadius → -s.cellRadius ≤ y →
          y < s.cellRadius → x * x + y * y ≤ s.cellRadius * s.cellRadius →
          ¬ (0 ≤ centreX s + x ∧ centreX s + x < (s.width : Int) ∧
            0 ≤ centreY s + y ∧ centreY s + y < (s.height : Int))) →
        fillGridAccess s = [] ∧ fillGrid s = s) := by
  have hb : ∀ idx ∈ fillGridAccess s, 0 ≤ idx ∧ idx < (s.width : Int) * (s.height : Int) := by
    intro idx hidx
    obtain ⟨_, x, y, _, _, hb, _, rfl⟩ := (mem_fillGridAccess s idx).1 hidx
    exact cellIndex_bounds _ _ s x y hb
  refine ⟨hb, ?_, ?_⟩
  · intro hlen idx hidx
    obtain ⟨h1, h2⟩ := hb idx hidx
    rw [hlen]
    have : ((idx.toNat : Nat) : Int) < ((s.width * s.height : Nat) : Int) := by
      rw [Int.toNat_of_nonneg h1]
      push_cast
      exact h2
    exact_mod_cast this
  · intro hout
    have hnil : fillGridAccess s = [] := by
      apply List.eq_nil_iff_forall_not_mem.2
      intro idx hidx
      obtain ⟨_, x, y, hx, hy, hb, hc, _⟩ := (mem_fillGridAccess s idx).1 hidx
      exact hout x y hx.1 hx.2 hy.1 hy.2 hc hb
    refine ⟨hnil, ?_⟩
    rw [fillGrid_eq_mark, stampCells, hnil]
    rfl

/-- C9 at the example grid with the coil far outside the field. -/
theorem fillGrid_access_in_bounds_witness :
    fillGrid { exampleGrid with transform := farPose } =
      { exampleGrid with transform := farPose } :=
  ((fillGrid_access_in_bounds { exampleGrid with transform := farPose }).2.2 (by
    have hx : centreX { exampleGrid with transform := farPose } = 105 := by
      simp [centreX, exampleGrid, farPose, cround, Int.floor_eq_iff]; norm_num
    intro x y h1 h2 _ _ _ hb
    rw [hx] at hb
    simp only [exampleGrid] at h1 h2 hb
    omega)).2

/-- C3, counterexample: on the freshly built 10 by 10 grid of resolution 1, the stamp of
radius 2 over the world origin leaves `coverage` different from 13, and the cells `(7, 5)`
and `(5, 7)`, at distance exactly 2 from the centre `(5, 5)`, are not covered. -/
theorem radius_two_stamp_not_thirteen :
    ¬ ((markCovered (construct exampleConfig originPose) originPose 2).coverage = 13) ∧
      cellState (cellAt (markCovered (construct exampleConfig originPose) originPose 2) 7 5) =
        CellState.UNSCANNED ∧
      cellState (cellAt (markCovered (construct exampleConfig originPose) originPose 2) 5 7) =
        CellState.UNSCANNED := by
  have h : markCovered (construct exampleConfig originPose) originPose 2 =
      fillGridAt exampleGrid 5 5 := by
    rw [construct_exampleConfig]
    exact fillGrid_exampleGrid
  rw [h]
  decide

/-- C3, amended: on the freshly built 10 by 10 grid of resolution 1 (whatever the
constructor left in `transform`), the stamp of radius 2 over the world origin has the
centre cell `(5, 5)` and covers exactly the cells `(5+dx, 5+dy)` with `-2 ≤ dx < 2`,
`-2 ≤ dy < 2` and `dx*dx + dy*dy ≤ 4`; `coverage` is 11 afterwards. -/
theorem radius_two_stamp_eleven (transform : Transform) :
    centreX { construct exampleConfig transform with transform := originPose, cellRadius := 2 }
        = 5 ∧
      centreY { construct exampleConfig transform with transform := originPose, cellRadius := 2 }
        = 5 ∧
      (∀ i j : Nat, i < 10 → j < 10 →
        (cellState (cellAt (markCovered (construct exampleConfig transform) originPose 2) i j) =
            CellState.COVERED ↔
          (-2 ≤ (i : Int) - 5 ∧ (i : Int) - 5 < 2 ∧ -2 ≤ (j : Int) - 5 ∧ (j : Int) - 5 < 2 ∧
            ((i : Int) - 5) * ((i : Int) - 5) + ((j : Int) - 5) * ((j : Int) - 5) ≤ 4))) ∧
      (markCovered (construct exampleConfig transform) originPose 2).coverage = 11 := by
  have hs : ({ construct exampleConfig transform with
      transform := originPose, cellRadius := 2 } : minefieldViewer) = exampleGrid := by
    simp [construct, exampleConfig, exampleGrid, toUInt32, coverageDeclared]
  have h : markCovered (construct exampleConfig transform) originPose 2 =
      fillGridAt exampleGrid 5 5 := by
    unfold markCovered
    rw [hs]
    exact fillGrid_exampleGrid
  rw [hs, h]
  have key : ∀ i : Nat, i < 10 → ∀ j : Nat, j < 10 →
      (cellState (cellAt (fillGridAt exampleGrid 5 5) i j) = CellState.COVERED ↔
        (-2 ≤ (i : Int) - 5 ∧ (i : Int) - 5 < 2 ∧ -2 ≤ (j : Int) - 5 ∧ (j : Int) - 5 < 2 ∧
          ((i : Int) - 5) * ((i : Int) - 5) + ((j : Int) - 5) * ((j : Int) - 5) ≤ 4)) := by
    decide
  exact ⟨centre_exampleGrid.1, centre_exampleGrid.2, fun i j hi hj => key i hi j hj, by decide⟩

/-- C3, amended, at the centre cell `(5, 5)` and at the corner `(0, 0)`: the first is
covered by the stamp, the second is not. -/
theorem radius_two_stamp_eleven_witness :
    cellState (cellAt (markCovered (construct exampleConfig originPose) originPose 2) 5 5) =
        CellState.COVERED ∧
      ¬ cellState (cellAt (markCovered (construct exampleConfig originPose) originPose 2) 0 0) =
        CellState.COVERED :=
  ⟨((radius_two_stamp_eleven originPose).2.2.1 5 5 (by decide) (by decide)).2 (by decide),
    fun h => absurd (((radius_two_stamp_eleven originPose).2.2.1 0 0 (by decide)
      (by decide)).1 h) (by decide)⟩

/-- C4, at the failing lookup: whatever the state and the coil, when the lookup throws,
`getCoilTransform` returns `true` and leaves the stored transform as it was. -/
theorem getCoilTransform_failed_lookup (s : minefieldViewer) (i : Nat) :
    (getCoilTransform s i (fun _ => none)).1 = true ∧
      (getCoilTransform s i (fun _ => none)).2 = s :=
  ⟨rfl, rfl⟩

/-- C5, at the failing cycle: on the freshly built example grid with the origin in
`transform`, a cycle in which all three lookups fail still runs `fillGrid`: `coverage`
goes from 0 to 11 and the published rate is 11/100. -/
theorem runCycle_all_lookups_fail :
    (construct exampleConfig originPose).coverage = 0 ∧
      (runCycle (construct exampleConfig originPose) (fun _ => none)).1.coverage = 11 ∧
      (runCycle (construct exampleConfig originPose) (fun _ => none)).1.data ≠
        (construct exampleConfig originPose).data ∧
      (runCycle (construct exampleConfig originPose) (fun _ => none)).2 = 11 / 100 := by
  have h : (runCycle (construct exampleConfig originPose) (fun _ => none)).1 =
      fillGridAt exampleGrid 5 5 := by
    rw [construct_exampleConfig]
    show fillGrid (fillGrid (fillGrid exampleGrid)) = _
    rw [fillGrid_idem, fillGrid_idem]
    exact fillGrid_exampleGrid
  have h2 : (runCycle (construct exampleConfig originPose) (fun _ => none)).2 =
      coverageRate (runCycle (construct exampleConfig originPose) (fun _ => none)).1 := rfl
  rw [h2, h, construct_exampleConfig]
  refine ⟨rfl, by decide, by decide, ?_⟩
  have hc : (fillGridAt exampleGrid 5 5).coverage = 11 := by decide
  have hw : (fillGridAt exampleGrid 5 5).width = 10 := by decide
  have hh : (fillGridAt exampleGrid 5 5).height = 10 := by decide
  simp only [coverageRate, hc, hw, hh]
  norm_num

/-- C6, counterexample: with a width of 0 cells the construction does not fail. -/
theorem gridInit_zero_width_succeeds :
    ¬ ((∃ e, gridInit ⟨1, 0, 5, 2⟩ originPose = Except.error e) ↔
      ((⟨1, 0, 5, 2⟩ : Config).numCellsInX ≤ 0 ∨ (⟨1, 0, 5, 2⟩ : Config).numCellsInY ≤ 0 ∨
        (⟨1, 0, 5, 2⟩ : Config).resolution ≤ 0)) := by
  intro h
  obtain ⟨e, he⟩ := h.2 (Or.inl (le_refl _))
  simp [gridInit] at he

/-- C6, amended: the construction validates nothing and never fails, whatever the
configuration; the grid it yields has as many cells as the `uint32` product of width and
height, which is exactly `width*height` when both are positive and the product is
below `2^32`. -/
theorem gridInit_never_fails (config : Config) (transform : Transform) :
    gridInit config transform = Except.ok (construct config transform) ∧
      (construct config transform).data.length =
        (toUInt32 config.numCellsInX * toUInt32 config.numCellsInY) % 4294967296 ∧
      (0 < config.numCellsInX → 0 < config.numCellsInY →
        config.numCellsInX * config.numCellsInY < 4294967296 →
        (construct config transform).data.length =
          (config.numCellsInX * config.numCellsInY).toNat) := by
  refine ⟨rfl, by simp [construct], ?_⟩
  intro hw hh hfit
  rw [construct_data_of_fit config transform hw hh hfit, List.length_replicate]

/-- C6, amended, at the example configuration: 100 cells. -/
theorem gridInit_never_fails_witness :
    (construct exampleConfig originPose).data.length = 100 :=
  (gridInit_never_fails exampleConfig originPose).2.2 (by decide) (by decide) (by decide)

/-- C10, at the failing cycle: on the freshly built example grid with the origin in
`transform`, in a cycle where only the lookup of coil 1 succeeds (at `sidePose`), the
loop of `run` in the source order 0, 1, 2 ends with `coverage` 22, and the same loop
visiting the coils in the order 1, 0, 2 ends with `coverage` 11: the failed lookup of
coil 0 is reported as valid and stamps whatever `transform` holds at that moment. -/
theorem runCycle_depends_on_coil_order :
    (runCycle (construct exampleConfig originPose) onlyMiddle).1 =
        runCoils (construct exampleConfig originPose) onlyMiddle [0, 1, 2] ∧
      (runCoils (construct exampleConfig originPose) onlyMiddle [0, 1, 2]).coverage = 22 ∧
      (runCoils (construct exampleConfig originPose) onlyMiddle [1, 0, 2]).coverage = 11 ∧
      (runCoils (construct exampleConfig originPose) onlyMiddle [0, 1, 2]).data ≠
        (runCoils (construct exampleConfig originPose) onlyMiddle [1, 0, 2]).data := by
  have h012 : runCoils (construct exampleConfig originPose) onlyMiddle [0, 1, 2] =
      fillGridAt { fillGridAt exampleGrid 5 5 with transform := sidePose } 8 8 := by
    rw [construct_exampleConfig]
    show fillGrid (fillGrid { fillGrid exampleGrid with transform := sidePose }) = _
    rw [fillGrid_idem]
    exact fillGrid_sidePose_stamped
  have h102 : runCoils (construct exampleConfig originPose) onlyMiddle [1, 0, 2] =
      fillGridAt { exampleGrid with transform := sidePose } 8 8 := by
    rw [construct_exampleConfig]
    show fillGrid (fillGrid (fillGrid { exampleGrid with transform := sidePose })) = _
    rw [fillGrid_idem, fillGrid_idem]
    exact fillGrid_sidePose_fresh
  refine ⟨rfl, ?_⟩
  rw [h012, h102]
  exact ⟨by decide, by decide, by decide⟩

end Hratc
